import Mathlib

/-!
Shallow embedding of `src/badger_os/examples/conway.py` (Conway's Game of
Life example for the Badger 2040 badge), covering the automaton engine
(grid, neighbor counting, generation step, pattern loading) and the
button-driven main-loop state machine.

Cells are Python ints 0 / 1; the grid is modelled as a total function from
integer coordinates to the cell value, with all reads and writes guarded by
the same bounds checks the Python code performs on its list-of-lists.
Randomness (`random.random()`) is modelled as an oracle supplying one
rational draw in `[0, 1)` per cell.
-/

namespace Conway

/-- Cell state as stored in the source grids: `0` = DEAD, `1` = ALIVE. -/
abbrev Cell := Nat

/-- A grid, addressed as `g x y` (the Python code reads `grid[y][x]`). -/
abbrev Grid := Int → Int → Cell

/-- A cell value is boolean: the grids of the program only ever hold 0 or 1. -/
def BoolGrid (g : Grid) : Prop := ∀ x y : Int, g x y = 0 ∨ g x y = 1

/-- The bounds check `0 <= x < W and 0 <= y < H` used throughout the source. -/
def inBounds (W H x y : Int) : Prop := 0 ≤ x ∧ x < W ∧ 0 ≤ y ∧ y < H

instance (W H x y : Int) : Decidable (inBounds W H x y) := by
  unfold inBounds; infer_instance

/-- A named pattern: `{"name": ..., "cells": [...]}` entries of `patterns`. -/
structure Pattern where
  name : String
  cells : List (Int × Int)
deriving DecidableEq

/-- The `patterns` list of the source (conway.py lines 43-117). -/
def patterns : List Pattern :=
  [ ⟨"R-pentomino", [(1, 0), (2, 0), (0, 1), (1, 1), (1, 2)]⟩,
    ⟨"Acorn", [(1, 0), (3, 1), (0, 2), (1, 2), (4, 2), (5, 2), (6, 2)]⟩,
    ⟨"Diehard", [(6, 0), (0, 1), (1, 1), (1, 2), (5, 2), (6, 2), (7, 2)]⟩,
    ⟨"Glider Gun",
      [(0, 4), (0, 5), (1, 4), (1, 5),
       (10, 4), (10, 5), (10, 6), (11, 3), (11, 7), (12, 2), (12, 8),
       (13, 2), (13, 8), (14, 5), (15, 3), (15, 7), (16, 4), (16, 5), (16, 6),
       (17, 5),
       (20, 2), (20, 3), (20, 4), (21, 2), (21, 3), (21, 4), (22, 1), (22, 5),
       (24, 0), (24, 1), (24, 5), (24, 6),
       (34, 2), (34, 3), (35, 2), (35, 3)]⟩,
    ⟨"B-heptomino", [(1, 0), (2, 0), (0, 1), (1, 1), (1, 2), (2, 2), (3, 2)]⟩,
    ⟨"Spaceship", [(0, 1), (3, 1), (4, 2), (0, 3), (4, 3), (1, 4), (2, 4), (3, 4), (4, 4)]⟩,
    ⟨"10-cell row",
      [(0, 0), (1, 0), (2, 0), (3, 0), (4, 0), (5, 0), (6, 0), (7, 0), (8, 0), (9, 0)]⟩,
    ⟨"Pulsar",
      [(2, 0), (3, 0), (4, 0), (8, 0), (9, 0), (10, 0),
       (0, 2), (5, 2), (7, 2), (12, 2),
       (0, 3), (5, 3), (7, 3), (12, 3),
       (0, 4), (5, 4), (7, 4), (12, 4),
       (2, 5), (3, 5), (4, 5), (8, 5), (9, 5), (10, 5),
       (2, 7), (3, 7), (4, 7), (8, 7), (9, 7), (10, 7),
       (0, 8), (5, 8), (7, 8), (12, 8),
       (0, 9), (5, 9), (7, 9), (12, 9),
       (0, 10), (5, 10), (7, 10), (12, 10),
       (2, 12), (3, 12), (4, 12), (8, 12), (9, 12), (10, 12)]⟩,
    ⟨"Random", []⟩ ]

/-- The value `len(patterns)`. -/
def numPatterns : Nat := patterns.length

/-- Function `clear_grid` (lines 119-123): sets every in-bounds cell to 0. -/
def clear_grid (W H : Int) (g : Grid) : Grid :=
  fun x y => if inBounds W H x y then 0 else g x y

/-- Function `count_neighbors` (lines 161-171): iterates `dy` then `dx` over
`[-1, 0, 1]`, skips `(0, 0)`, and adds the cell value of each in-bounds
neighbor to the running count. -/
def count_neighbors (W H : Int) (g : Grid) (x y : Int) : Nat :=
  List.foldl
    (fun c dy =>
      List.foldl
        (fun c dx =>
          if dx = 0 ∧ dy = 0 then c
          else
            c + (if inBounds W H (x + dx) (y + dy) then g (x + dx) (y + dy) else 0))
        c [(-1 : Int), 0, 1])
    0 [(-1 : Int), 0, 1]

/-- The per-cell transition of `update_game` (lines 180-192): a living cell
dies unless it has 2 or 3 neighbors; a dead cell is born iff it has exactly
3 neighbors. -/
def stepCell (W H : Int) (g : Grid) (x y : Int) : Cell :=
  if g x y = 1 then
    if count_neighbors W H g x y < 2 ∨ count_neighbors W H g x y > 3 then 0 else 1
  else
    if count_neighbors W H g x y = 3 then 1 else 0

/-- The effect of `update_game` on the grid (lines 173-195): the whole next
generation is computed from the prior grid into a second buffer, which then
becomes the current grid. -/
def step (W H : Int) (g : Grid) : Grid := fun x y => stepCell W H g x y

/-- Placement offset chosen by `load_pattern` (lines 138-153), dispatched on
the pattern name exactly as the source does. -/
def patternOffset (W H : Int) (p : Pattern) : Int × Int :=
  if p.name = "Glider Gun" then (5, 2)
  else if p.name = "Pulsar" then (W / 2 - 6, H / 2 - 6)
  else if p.name = "10-cell row" then (W / 2 - 5, H / 3)
  else (W / 2 - 3, H / 2 - 3)

/-- The stamping loop of `load_pattern` (lines 155-159): for each cell
offset, write 1 at `offset + cell` when that position is in bounds,
otherwise do nothing. -/
def stampCells (W H : Int) (off : Int × Int) (cs : List (Int × Int)) (g : Grid) : Grid :=
  cs.foldl
    (fun g c =>
      let gx := off.1 + c.1
      let gy := off.2 + c.2
      if inBounds W H gx gy then
        fun x y => if x = gx ∧ y = gy then 1 else g x y
      else g)
    g

/-- Python list indexing `l[i]` for an `int` index: non-negative indices
count from the front, negative indices from the back, and anything out of
range is an error (`none`). -/
def pyGet (l : List Pattern) (i : Int) : Option Pattern :=
  if 0 ≤ i then l[i.toNat]?
  else if 0 ≤ i + l.length then l[(i + (l.length : Int)).toNat]?
  else none

/-- Function `load_pattern(pattern_index)` (lines 125-159): clear the grid, then
either fill every cell randomly at density 0.4 (for the `"Random"` marker)
or stamp the pattern's cells at its placement offset.  The draw
`random.random()` for the cell at `(x, y)` is modelled as `rand x y`; an
out-of-range index is an error (`none`). -/
def load_pattern (W H : Int) (rand : Int → Int → ℚ) (i : Int) (g : Grid) : Option Grid :=
  match pyGet patterns i with
  | none => none
  | some p =>
    let g0 := clear_grid W H g
    some
      (if p.name = "Random" then
        fun x y =>
          if inBounds W H x y then (if rand x y < 0.4 then 1 else 0) else g0 x y
      else
        stampCells W H (patternOffset W H p) p.cells g0)

/-- Constant `GRID_WIDTH = badger2040.WIDTH // CELL_SIZE` (line 12): the vendor
library's display is 296 pixels wide, so `296 // 4 = 74` cells, as the
source comment records. -/
def GRID_WIDTH : Int := 74

/-- Constant `GRID_HEIGHT = (badger2040.HEIGHT - UI_HEIGHT) // CELL_SIZE` (line 13):
`(128 - 25) // 4 = 25` cells, as the source comment records. -/
def GRID_HEIGHT : Int := 25

/-- The mutable program state: the `state` dict (`paused`, `pattern`,
`generation` — Python ints, so `Int`) together with the grid it drives. -/
structure ProgState where
  paused : Bool
  pattern : Int
  generation : Int
  grid : Grid

/-- The discrete events the main loop (lines 279-331) reacts to: one of the
five buttons, or the periodic ~500ms timer tick firing. -/
inductive Ev
  | btnA | btnB | btnC | btnUp | btnDown | tick
deriving DecidableEq

/-- Function `update_game` (lines 173-196) acting on the whole program state:
replaces the grid with the next generation and increments the generation
counter by 1. -/
def update_game (s : ProgState) : ProgState :=
  { s with grid := step GRID_WIDTH GRID_HEIGHT s.grid, generation := s.generation + 1 }

/-- Function `load_pattern(state["pattern"])` acting on the whole program state: the
function body (lines 125-159) touches only the grid. -/
def load_pattern_prog (rand : Int → Int → ℚ) (s : ProgState) : Option ProgState :=
  (load_pattern GRID_WIDTH GRID_HEIGHT rand s.pattern s.grid).map fun g => { s with grid := g }

/-- One reaction of the main loop (lines 285-325) to an event:
  * button A: `pattern := (pattern - 1) % len(patterns)`, `generation := 0`,
    reload;
  * button B: toggle `paused`;
  * button C: `pattern := (pattern + 1) % len(patterns)`, `generation := 0`,
    reload;
  * button UP: single-step the game, but only when paused;
  * button DOWN: `generation := 0`, reload the current pattern;
  * timer tick: step the game when not paused.
`none` only when a reload fails (out-of-range pattern index). -/
def handleEvent (rand : Int → Int → ℚ) (s : ProgState) (e : Ev) : Option ProgState :=
  match e with
  | .btnA =>
    load_pattern_prog rand
      { s with pattern := (s.pattern - 1) % (numPatterns : Int), generation := 0 }
  | .btnB => some { s with paused := !s.paused }
  | .btnC =>
    load_pattern_prog rand
      { s with pattern := (s.pattern + 1) % (numPatterns : Int), generation := 0 }
  | .btnUp => some (if s.paused then update_game s else s)
  | .btnDown => load_pattern_prog rand { s with generation := 0 }
  | .tick => some (if s.paused then s else update_game s)

/-- The grid buffers as initialized at module load (lines 39-40): all zero. -/
def initGrid : Grid := fun _ _ => 0

/-- Program startup (lines 268-274): `state_load` restores a persisted
`(paused, pattern, generation)` triple into `state`, the pattern index is
reset to 0 only when `>= len(patterns)`, and `load_pattern` is called on
the freshly zeroed grid.  The generation counter is left as loaded. -/
def startup (rand : Int → Int → ℚ) (loadedPaused : Bool) (loadedPattern loadedGeneration : Int) :
    Option ProgState :=
  let p := if loadedPattern ≥ (numPatterns : Int) then 0 else loadedPattern
  load_pattern_prog rand
    { paused := loadedPaused, pattern := p, generation := loadedGeneration, grid := initGrid }

/-! ### Spec-side definitions -/

/-- The 8 Moore-neighborhood offsets (the cell itself, offset `(0, 0)`, is
not among them). -/
def mooreOffsets : List (Int × Int) :=
  [(-1, -1), (0, -1), (1, -1), (-1, 0), (1, 0), (-1, 1), (0, 1), (1, 1)]

/-- Spec-side neighbor count: the number of ALIVE cells among the 8
Moore-neighborhood positions of `(x, y)`, where a position outside
`[0, W) × [0, H)` counts as DEAD. -/
def liveMooreNeighbors (W H : Int) (g : Grid) (x y : Int) : Nat :=
  mooreOffsets.countP fun d =>
    decide (inBounds W H (x + d.1) (y + d.2) ∧ g (x + d.1) (y + d.2) = 1)

/-! ### Helper lemmas -/

theorem ite_cell_eq (W H : Int) (g : Grid) (hg : BoolGrid g) (a b : Int) :
    (if inBounds W H a b then g a b else 0)
      = (if inBounds W H a b ∧ g a b = 1 then 1 else 0) := by
  rcases hg a b with h | h <;> split_ifs <;> simp_all

/-- Spec-side: `(x, y)` is a position stamped by loading pattern `p`: for
the random-fill marker, a cell whose pseudo-random draw is below 0.4; for a
named pattern, a cell offset of the pattern translated by its placement
offset. -/
def stampedCell (W H : Int) (rand : Int → Int → ℚ) (p : Pattern) (x y : Int) : Prop :=
  if p.name = "Random" then rand x y < 0.4
  else ∃ c ∈ p.cells,
    x = (patternOffset W H p).1 + c.1 ∧ y = (patternOffset W H p).2 + c.2

instance (W H : Int) (rand : Int → Int → ℚ) (p : Pattern) (x y : Int) :
    Decidable (stampedCell W H rand p x y) := by
  unfold stampedCell; infer_instance

theorem stampCells_cons (W H : Int) (off c : Int × Int) (cs : List (Int × Int)) (g : Grid) :
    stampCells W H off (c :: cs) g
      = stampCells W H off cs
          (if inBounds W H (off.1 + c.1) (off.2 + c.2) then
            (fun x y => if x = off.1 + c.1 ∧ y = off.2 + c.2 then 1 else g x y)
          else g) := rfl

theorem stampCells_out (W H : Int) (off : Int × Int) (cs : List (Int × Int)) (g : Grid)
    (x y : Int) (h : ¬ inBounds W H x y) :
    stampCells W H off cs g x y = g x y := by
  induction cs generalizing g with
  | nil => rfl
  | cons c cs ih =>
    rw [stampCells_cons, ih]
    split_ifs with hc
    · show (if x = off.1 + c.1 ∧ y = off.2 + c.2 then 1 else g x y) = g x y
      rw [if_neg]
      rintro ⟨rfl, rfl⟩
      exact h hc
    · rfl

theorem stampCells_eq_one (W H : Int) (off : Int × Int) (cs : List (Int × Int)) (g : Grid)
    (x y : Int) :
    (stampCells W H off cs g x y = 1
       ↔ (∃ c ∈ cs, inBounds W H (off.1 + c.1) (off.2 + c.2)
            ∧ x = off.1 + c.1 ∧ y = off.2 + c.2)
         ∨ g x y = 1) := by
  induction cs generalizing g with
  | nil => simp [stampCells]
  | cons c cs ih =>
    rw [stampCells_cons, ih]
    by_cases hc : inBounds W H (off.1 + c.1) (off.2 + c.2)
    · rw [if_pos hc]
      by_cases he : x = off.1 + c.1 ∧ y = off.2 + c.2
      · simp only [List.mem_cons]
        constructor
        · intro _
          exact Or.inl ⟨c, Or.inl rfl, hc, he⟩
        · intro _
          exact Or.inr (if_pos he)
      · simp only [List.mem_cons]
        constructor
        · rintro (⟨c', hc', hb, hxy⟩ | h')
          · exact Or.inl ⟨c', Or.inr hc', hb, hxy⟩
          · right
            have : (if x = off.1 + c.1 ∧ y = off.2 + c.2 then 1 else g x y) = g x y :=
              if_neg he
            rw [← this]
            exact h'
        · rintro (⟨c', hc' | hc', hb, hxy⟩ | h')
          · subst hc'
            exact absurd hxy he
          · exact Or.inl ⟨c', hc', hb, hxy⟩
          · right
            show (if x = off.1 + c.1 ∧ y = off.2 + c.2 then 1 else g x y) = 1
            rw [if_neg he]
            exact h'
    · rw [if_neg hc]
      simp only [List.mem_cons]
      constructor
      · rintro (⟨c', hc', hb, hxy⟩ | h')
        · exact Or.inl ⟨c', Or.inr hc', hb, hxy⟩
        · exact Or.inr h'
      · rintro (⟨c', hc' | hc', hb, hxy⟩ | h')
        · subst hc'
          exact absurd hb hc
        · exact Or.inl ⟨c', hc', hb, hxy⟩
        · exact Or.inr h'

theorem stampCells_val (W H : Int) (off : Int × Int) (cs : List (Int × Int)) (g : Grid)
    (x y : Int) :
    stampCells W H off cs g x y = 1 ∨ stampCells W H off cs g x y = g x y := by
  induction cs generalizing g with
  | nil => exact Or.inr rfl
  | cons c cs ih =>
    rw [stampCells_cons]
    rcases ih (if inBounds W H (off.1 + c.1) (off.2 + c.2) then
        (fun x y => if x = off.1 + c.1 ∧ y = off.2 + c.2 then 1 else g x y)
      else g) with h | h
    · exact Or.inl h
    · rw [h]
      split_ifs with hc
      · show (if x = off.1 + c.1 ∧ y = off.2 + c.2 then 1 else g x y) = 1
            ∨ (if x = off.1 + c.1 ∧ y = off.2 + c.2 then 1 else g x y) = g x y
        split_ifs with he
        · exact Or.inl rfl
        · exact Or.inr rfl
      · exact Or.inr rfl

theorem stampCells_filter (W H : Int) (off : Int × Int) (cs : List (Int × Int)) (g : Grid) :
    stampCells W H off cs g
      = stampCells W H off
          (cs.filter fun c => decide (inBounds W H (off.1 + c.1) (off.2 + c.2))) g := by
  induction cs generalizing g with
  | nil => rfl
  | cons c cs ih =>
    by_cases hc : inBounds W H (off.1 + c.1) (off.2 + c.2)
    · rw [stampCells_cons, if_pos hc, List.filter_cons]
      rw [if_pos (by simpa using hc)]
      rw [stampCells_cons, if_pos hc, ih]
    · rw [stampCells_cons, if_neg hc, List.filter_cons]
      rw [if_neg (by simpa using hc)]
      exact ih g

theorem clear_grid_in (W H : Int) (g : Grid) (x y : Int) (h : inBounds W H x y) :
    clear_grid W H g x y = 0 := if_pos h

theorem clear_grid_out (W H : Int) (g : Grid) (x y : Int) (h : ¬ inBounds W H x y) :
    clear_grid W H g x y = g x y := if_neg h

/-! ### Claims -/

/-- C1: for every grid and every in-bounds cell, one `step` applies the
standard rule to the prior generation: an ALIVE cell with fewer than 2 or
more than 3 live neighbors becomes DEAD, an ALIVE cell with 2 or 3 live
neighbors stays ALIVE, a DEAD cell with exactly 3 live neighbors becomes
ALIVE, and any other DEAD cell stays DEAD. -/
theorem step_applies_conway_rule (W H : Int) (g : Grid) (x y : Int)
    (hxy : inBounds W H x y) :
    (g x y = 1 →
      ((count_neighbors W H g x y < 2 ∨ count_neighbors W H g x y > 3) → step W H g x y = 0)
      ∧ ((count_neighbors W H g x y = 2 ∨ count_neighbors W H g x y = 3) → step W H g x y = 1))
    ∧ (g x y = 0 →
      ((count_neighbors W H g x y = 3) → step W H g x y = 1)
      ∧ ((count_neighbors W H g x y ≠ 3) → step W H g x y = 0)) := by
  refine ⟨fun h1 => ⟨fun h => ?_, fun h => ?_⟩, fun h0 => ⟨fun h => ?_, fun h => ?_⟩⟩ <;>
    simp only [step, stepCell] <;> split_ifs <;> first | rfl | omega | simp_all

/-- The horizontal 3-cell blinker: ALIVE at `(1,2)`, `(2,2)`, `(3,2)`. -/
def blinkerH : Grid := fun x y => if (x = 1 ∨ x = 2 ∨ x = 3) ∧ y = 2 then 1 else 0

/-- The vertical 3-cell blinker: ALIVE at `(2,1)`, `(2,2)`, `(2,3)`. -/
def blinkerV : Grid := fun x y => if x = 2 ∧ (y = 1 ∨ y = 2 ∨ y = 3) then 1 else 0

/-- C1 witness: the rule evaluated at cell `(2, 2)` of the horizontal
blinker on a 5×5 board (ALIVE with 2 live neighbors, so it survives). -/
theorem step_applies_conway_rule_witness : step 5 5 blinkerH 2 2 = 1 :=
  ((step_applies_conway_rule 5 5 blinkerH 2 2 (by decide)).1 (by decide)).2
    (Or.inl (by decide))

/-- C2: for every 0/1 grid and in-bounds `(x, y)`, `count_neighbors` returns
the number of ALIVE cells among the 8 Moore-neighborhood positions (the cell
itself is not one of them), out-of-bounds positions counting as DEAD, and
the result is in `[0, 8]` (it is a `Nat`, so `0 ≤` is automatic). -/
theorem count_neighbors_spec (W H : Int) (g : Grid) (x y : Int)
    (hg : BoolGrid g) (hxy : inBounds W H x y) :
    count_neighbors W H g x y = liveMooreNeighbors W H g x y
      ∧ count_neighbors W H g x y ≤ 8 := by
  have key : count_neighbors W H g x y = liveMooreNeighbors W H g x y := by
    simp only [count_neighbors, liveMooreNeighbors, mooreOffsets, List.foldl_cons,
      List.foldl_nil, List.countP_cons, List.countP_nil, decide_eq_true_eq]
    norm_num
    simp only [ite_cell_eq W H g hg]
    ring
  refine ⟨key, ?_⟩
  rw [key]
  exact le_trans (List.countP_le_length _) (by norm_num [mooreOffsets])

/-- C2 witness: the horizontal blinker's center cell on a 5×5 board. -/
theorem count_neighbors_spec_witness :
    count_neighbors 5 5 blinkerH 2 2 = liveMooreNeighbors 5 5 blinkerH 2 2
      ∧ count_neighbors 5 5 blinkerH 2 2 ≤ 8 :=
  count_neighbors_spec 5 5 blinkerH 2 2
    (fun x y => by unfold blinkerH; split_ifs <;> simp) (by decide)

/-- C7: on a 5×5 board, the horizontal blinker at `(1,2),(2,2),(3,2)`
becomes the vertical line at `(2,1),(2,2),(2,3)` after one `step`, and a
second `step` restores the original horizontal configuration. -/
theorem blinker_oscillates :
    (∀ x : Nat, x < 5 → ∀ y : Nat, y < 5 →
      step 5 5 blinkerH x y = blinkerV x y)
    ∧ (∀ x : Nat, x < 5 → ∀ y : Nat, y < 5 →
      step 5 5 (step 5 5 blinkerH) x y = blinkerH x y) := by decide

/-- C7 witness: the oscillation checked at cells `(2,1)` and `(1,2)`. -/
theorem blinker_oscillates_witness :
    step 5 5 blinkerH 2 1 = blinkerV 2 1
      ∧ step 5 5 (step 5 5 blinkerH) 1 2 = blinkerH 1 2 :=
  ⟨blinker_oscillates.1 2 (by decide) 1 (by decide),
   blinker_oscillates.2 1 (by decide) 2 (by decide)⟩

/-- C4: for every prior grid contents and valid pattern index, after
`load_pattern` an in-bounds cell is ALIVE exactly when it is a position
stamped by that pattern, and DEAD otherwise: loading clears the whole grid
before stamping, so the prior contents never show through. -/
theorem load_pattern_clears_and_stamps (W H : Int) (rand : Int → Int → ℚ) (i : Int)
    (p : Pattern) (g g' : Grid) (x y : Int)
    (hp : pyGet patterns i = some p)
    (hl : load_pattern W H rand i g = some g')
    (hxy : inBounds W H x y) :
    (g' x y = 1 ↔ stampedCell W H rand p x y)
      ∧ (g' x y = 0 ↔ ¬ stampedCell W H rand p x y) := by
  unfold load_pattern at hl
  rw [hp] at hl
  simp only [Option.some.injEq] at hl
  subst hl
  by_cases hr : p.name = "Random"
  · simp only [if_pos hr]
    unfold stampedCell
    rw [if_pos hr]
    simp only [if_pos hxy]
    constructor
    · split_ifs with h <;> simp [h]
    · split_ifs with h <;> simp [h]
  · simp only [if_neg hr]
    unfold stampedCell
    rw [if_neg hr]
    have h1 := stampCells_eq_one W H (patternOffset W H p) p.cells (clear_grid W H g) x y
    rw [clear_grid_in W H g x y hxy] at h1
    simp only [Nat.zero_ne_one, or_false] at h1
    have hiff :
        (∃ c ∈ p.cells,
            inBounds W H ((patternOffset W H p).1 + c.1) ((patternOffset W H p).2 + c.2)
              ∧ x = (patternOffset W H p).1 + c.1 ∧ y = (patternOffset W H p).2 + c.2)
          ↔ (∃ c ∈ p.cells,
              x = (patternOffset W H p).1 + c.1 ∧ y = (patternOffset W H p).2 + c.2) := by
      constructor
      · rintro ⟨c, hc, _, hx, hy⟩
        exact ⟨c, hc, hx, hy⟩
      · rintro ⟨c, hc, hx, hy⟩
        exact ⟨c, hc, by rw [← hx, ← hy]; exact hxy, hx, hy⟩
    refine ⟨h1.trans hiff, ?_⟩
    rcases stampCells_val W H (patternOffset W H p) p.cells (clear_grid W H g) x y with hv | hv
    · constructor
      · intro h0
        rw [hv] at h0
        exact absurd h0 one_ne_zero
      · intro hns
        exact absurd (hiff.mp (h1.mp hv)) hns
    · rw [clear_grid_in W H g x y hxy] at hv
      constructor
      · intro _
        intro hs
        have : stampCells W H (patternOffset W H p) p.cells (clear_grid W H g) x y = 1 :=
          h1.mpr (hiff.mpr hs)
        rw [hv] at this
        exact absurd this zero_ne_one
      · intro _
        exact hv

/-- C4 witness: loading the R-pentomino (index 0) over a previously
all-ALIVE 9×9 grid; the stamped cell `(2, 1)` is ALIVE afterwards. -/
theorem load_pattern_clears_and_stamps_witness :
    stampCells 9 9 (1, 1) [(1, 0), (2, 0), (0, 1), (1, 1), (1, 2)]
      (clear_grid 9 9 (fun _ _ => 1)) 2 1 = 1 :=
  (load_pattern_clears_and_stamps 9 9 (fun _ _ => 1) 0
      ⟨"R-pentomino", [(1, 0), (2, 0), (0, 1), (1, 1), (1, 2)]⟩ (fun _ _ => 1)
      (stampCells 9 9 (1, 1) [(1, 0), (2, 0), (0, 1), (1, 1), (1, 2)]
        (clear_grid 9 9 (fun _ _ => 1)))
      2 1 rfl rfl (by decide)).1.mpr (by decide)

/-- C5: loading a named (non-random) pattern never fails and clips:
out-of-bounds grid positions are never written (they keep their prior
value), and the stamped result is exactly that of stamping only the cells
whose absolute coordinates are in bounds — out-of-bounds cells are silently
dropped. -/
theorem load_pattern_clips (W H : Int) (rand : Int → Int → ℚ) (i : Int) (p : Pattern)
    (g : Grid) (hp : pyGet patterns i = some p) (hnr : p.name ≠ "Random") :
    ∃ g', load_pattern W H rand i g = some g'
      ∧ (∀ x y : Int, ¬ inBounds W H x y → g' x y = g x y)
      ∧ g' = stampCells W H (patternOffset W H p)
          (p.cells.filter fun c =>
            decide (inBounds W H ((patternOffset W H p).1 + c.1)
              ((patternOffset W H p).2 + c.2)))
          (clear_grid W H g) := by
  refine ⟨stampCells W H (patternOffset W H p) p.cells (clear_grid W H g), ?_, ?_, ?_⟩
  · unfold load_pattern
    rw [hp]
    simp only [if_neg hnr]
  · intro x y hxy
    rw [stampCells_out W H _ _ _ x y hxy]
    exact clear_grid_out W H g x y hxy
  · exact stampCells_filter W H _ _ _

/-- C5 witness: loading the Glider Gun (index 3) on a 10×10 grid succeeds
even though most of its cells fall outside the grid and are dropped. -/
theorem load_pattern_clips_witness :
    (load_pattern 10 10 (fun _ _ => 1) 3 initGrid).isSome = true := by
  obtain ⟨g', hg', -, -⟩ := load_pattern_clips 10 10 (fun _ _ => 1) 3
    ⟨"Glider Gun",
      [(0, 4), (0, 5), (1, 4), (1, 5),
       (10, 4), (10, 5), (10, 6), (11, 3), (11, 7), (12, 2), (12, 8),
       (13, 2), (13, 8), (14, 5), (15, 3), (15, 7), (16, 4), (16, 5), (16, 6),
       (17, 5),
       (20, 2), (20, 3), (20, 4), (21, 2), (21, 3), (21, 4), (22, 1), (22, 5),
       (24, 0), (24, 1), (24, 5), (24, 6),
       (34, 2), (34, 3), (35, 2), (35, 3)]⟩
    initGrid rfl (by decide)
  rw [hg']
  rfl

/-- C6: every pattern other than the Glider Gun (index 3), the 10-cell row
(index 6), the Pulsar (index 7) and the random-fill marker (index 8) is
placed at the generic centering offset `(W/2 - 3, H/2 - 3)`, while the
specially positioned patterns use their tailored offsets: `(5, 2)` for the
Glider Gun, `(W/2 - 5, H/3)` for the 10-cell row, and `(W/2 - 6, H/2 - 6)`
for the Pulsar. -/
theorem pattern_offsets (W H : Int) :
    (∀ i : Nat, i < numPatterns → i ≠ 3 → i ≠ 6 → i ≠ 7 → i ≠ 8 →
       ∀ p : Pattern, patterns[i]? = some p →
         patternOffset W H p = (W / 2 - 3, H / 2 - 3))
    ∧ (∀ p : Pattern, patterns[3]? = some p → patternOffset W H p = (5, 2))
    ∧ (∀ p : Pattern, patterns[6]? = some p → patternOffset W H p = (W / 2 - 5, H / 3))
    ∧ (∀ p : Pattern, patterns[7]? = some p →
        patternOffset W H p = (W / 2 - 6, H / 2 - 6)) := by
  refine ⟨?_, ?_, ?_, ?_⟩
  · intro i hi h3 h6 h7 h8 p hp
    have hn : numPatterns = 9 := rfl
    rw [hn] at hi
    interval_cases i <;>
      first
      | omega
      | (simp only [patterns, List.getElem?_cons_zero, List.getElem?_cons_succ,
          Option.some.injEq] at hp
         subst hp
         rfl)
  · intro p hp
    simp only [patterns, List.getElem?_cons_zero, List.getElem?_cons_succ,
      Option.some.injEq] at hp
    subst hp
    rfl
  · intro p hp
    simp only [patterns, List.getElem?_cons_zero, List.getElem?_cons_succ,
      Option.some.injEq] at hp
    subst hp
    rfl
  · intro p hp
    simp only [patterns, List.getElem?_cons_zero, List.getElem?_cons_succ,
      Option.some.injEq] at hp
    subst hp
    rfl

/-- C6 witness: on the program's 74×25 grid, the R-pentomino (index 0) is
placed at `(74/2 - 3, 25/2 - 3) = (34, 9)`. -/
theorem pattern_offsets_witness :
    patternOffset 74 25 ⟨"R-pentomino", [(1, 0), (2, 0), (0, 1), (1, 1), (1, 2)]⟩ = (34, 9) :=
  ((pattern_offsets 74 25).1 0 (by decide) (by decide) (by decide) (by decide) (by decide)
    ⟨"R-pentomino", [(1, 0), (2, 0), (0, 1), (1, 1), (1, 2)]⟩ rfl).trans (by decide)

theorem load_pattern_prog_eq (rand : Int → Int → ℚ) (s s' : ProgState)
    (h : load_pattern_prog rand s = some s') :
    s'.paused = s.paused ∧ s'.pattern = s.pattern ∧ s'.generation = s.generation
      ∧ load_pattern GRID_WIDTH GRID_HEIGHT rand s.pattern s.grid = some s'.grid := by
  unfold load_pattern_prog at h
  rcases hl : load_pattern GRID_WIDTH GRID_HEIGHT rand s.pattern s.grid with _ | g
  · rw [hl] at h
    cases h
  · rw [hl] at h
    simp only [Option.map, Option.some.injEq] at h
    subst h
    exact ⟨rfl, rfl, rfl, rfl⟩

theorem load_pattern_isSome (W H : Int) (rand : Int → Int → ℚ) (i : Int) (g : Grid)
    (h0 : 0 ≤ i) (h9 : i < (numPatterns : Int)) :
    ∃ g', load_pattern W H rand i g = some g' := by
  have hlen : patterns.length = 9 := rfl
  have hn : (numPatterns : Int) = 9 := rfl
  rw [hn] at h9
  have hlt : i.toNat < patterns.length := by
    rw [hlen]; omega
  obtain ⟨p, hp⟩ : ∃ p, pyGet patterns i = some p := by
    unfold pyGet
    rw [if_pos h0]
    exact ⟨_, List.getElem?_eq_getElem hlt⟩
  unfold load_pattern
  rw [hp]
  exact ⟨_, rfl⟩

/-- C9: loading the random-fill pattern (index 8) sets every in-bounds cell
ALIVE exactly when that cell's own pseudo-random draw is below 0.4, DEAD
otherwise, and the resulting value of a cell depends only on its own draw
(not on other cells' draws or on the prior grid contents). -/
theorem random_fill_density (W H : Int) (rand : Int → Int → ℚ) (g g' : Grid) (x y : Int)
    (hl : load_pattern W H rand 8 g = some g') (hxy : inBounds W H x y) :
    (g' x y = 1 ↔ rand x y < 0.4) ∧ (g' x y = 0 ↔ ¬ rand x y < 0.4)
      ∧ (∀ (rand' : Int → Int → ℚ) (g₂ g₂' : Grid), rand' x y = rand x y →
          load_pattern W H rand' 8 g₂ = some g₂' → g₂' x y = g' x y) := by
  have hb : load_pattern W H rand 8 g
      = some (fun x y => if inBounds W H x y then (if rand x y < (0.4 : ℚ) then 1 else 0)
          else clear_grid W H g x y) := rfl
  rw [hb] at hl
  have hg' := (Option.some.inj hl).symm
  subst hg'
  simp only [if_pos hxy]
  refine ⟨?_, ?_, ?_⟩
  · split_ifs with h <;> simp [h]
  · split_ifs with h <;> simp [h]
  · intro rand' g₂ g₂' hr hl₂
    have hb₂ : load_pattern W H rand' 8 g₂
        = some (fun x y => if inBounds W H x y then (if rand' x y < (0.4 : ℚ) then 1 else 0)
            else clear_grid W H g₂ x y) := rfl
    rw [hb₂] at hl₂
    have hg₂ := (Option.some.inj hl₂).symm
    subst hg₂
    simp only [if_pos hxy]
    rw [hr]

/-- C9 witness: a draw of 0 for cell `(0, 0)` on a 5×5 grid is below 0.4, so
the cell comes out ALIVE. -/
theorem random_fill_density_witness :
    (load_pattern 5 5 (fun _ _ => 0) 8 initGrid).map (fun g => g 0 0) = some 1 := by
  obtain ⟨g', hg'⟩ : ∃ g', load_pattern 5 5 (fun _ _ => 0) 8 initGrid = some g' := ⟨_, rfl⟩
  rw [hg']
  show some (g' 0 0) = some 1
  rw [(random_fill_density 5 5 (fun _ _ => 0) initGrid g' 0 0 hg' (by decide)).1.mpr
    (by norm_num)]

/-- C10: `load_pattern` mutates only the grid: the paused flag, the selected
pattern index and the generation counter are unchanged by the call itself,
and the new grid is exactly the result of `load_pattern` on the old grid. -/
theorem load_pattern_grid_only (rand : Int → Int → ℚ) (s s' : ProgState)
    (h : load_pattern_prog rand s = some s') :
    s'.paused = s.paused ∧ s'.pattern = s.pattern ∧ s'.generation = s.generation
      ∧ load_pattern GRID_WIDTH GRID_HEIGHT rand s.pattern s.grid = some s'.grid :=
  load_pattern_prog_eq rand s s' h

/-- C10 witness: reloading pattern 2 with generation 7 and paused set leaves
those fields untouched. -/
theorem load_pattern_grid_only_witness :
    (load_pattern_prog (fun _ _ => 1) ⟨true, 2, 7, initGrid⟩).map ProgState.generation
      = some 7 := by
  obtain ⟨s', hs'⟩ : ∃ s', load_pattern_prog (fun _ _ => 1) ⟨true, 2, 7, initGrid⟩ = some s' :=
    ⟨_, rfl⟩
  rw [hs']
  show some s'.generation = some 7
  rw [(load_pattern_grid_only (fun _ _ => 1) ⟨true, 2, 7, initGrid⟩ s' hs').2.2.1]

/-- C3 counterexample: startup with a persisted generation of 5 loads a
pattern (the load succeeds and produces a state) yet leaves the generation
counter at 5, not 0 — so the counter is not reset on every execution path
that loads a pattern. -/
theorem generation_counter_counterexample :
    (startup (fun _ _ => 1) true 0 5).map ProgState.generation = some 5
      ∧ (startup (fun _ _ => 1) true 0 5).map ProgState.generation ≠ some 0 := by
  refine ⟨rfl, ?_⟩
  intro h
  rw [show (startup (fun _ _ => 1) true 0 5).map ProgState.generation = some 5 from rfl] at h
  exact absurd (Option.some.inj h) (by decide)

/-- C3 (amended): the generation counter is set to 0 by every
button-triggered pattern (re)load (previous, next, reset), increases by
exactly 1 on each step (single-step while paused, timer tick while
running), is otherwise unchanged, and never decreases except by being reset
to 0 at those explicit reloads; at program startup, however, the counter
retains the persisted value restored by `state_load` instead of being reset
to 0. -/
theorem generation_counter (rand : Int → Int → ℚ) :
    (∀ (s s' : ProgState) (e : Ev), handleEvent rand s e = some s' →
       ((e = Ev.btnA ∨ e = Ev.btnC ∨ e = Ev.btnDown) → s'.generation = 0)
       ∧ (e = Ev.btnUp →
           s'.generation = if s.paused then s.generation + 1 else s.generation)
       ∧ (e = Ev.tick →
           s'.generation = if s.paused then s.generation else s.generation + 1)
       ∧ (e = Ev.btnB → s'.generation = s.generation)
       ∧ (s'.generation = 0 ∨ s.generation ≤ s'.generation))
    ∧ (∀ (b : Bool) (p gen : Int) (s0 : ProgState),
        startup rand b p gen = some s0 → s0.generation = gen) := by
  constructor
  · intro s s' e h
    cases e with
    | btnA =>
      have hg := (load_pattern_prog_eq rand _ _ h).2.2.1
      exact ⟨fun _ => hg, fun hc => absurd hc (by decide), fun hc => absurd hc (by decide),
        fun hc => absurd hc (by decide), Or.inl hg⟩
    | btnB =>
      have hs := Option.some.inj h
      subst hs
      refine ⟨?_, fun hc => absurd hc (by decide), fun hc => absurd hc (by decide),
        fun _ => rfl, Or.inr le_rfl⟩
      intro hc
      rcases hc with hc | hc | hc <;> exact absurd hc (by decide)
    | btnC =>
      have hg := (load_pattern_prog_eq rand _ _ h).2.2.1
      exact ⟨fun _ => hg, fun hc => absurd hc (by decide), fun hc => absurd hc (by decide),
        fun hc => absurd hc (by decide), Or.inl hg⟩
    | btnUp =>
      have hs := Option.some.inj h
      subst hs
      refine ⟨?_, fun _ => ?_, fun hc => absurd hc (by decide),
        fun hc => absurd hc (by decide), ?_⟩
      · intro hc
        rcases hc with hc | hc | hc <;> exact absurd hc (by decide)
      · split_ifs with hpause <;> simp [update_game, hpause]
      · split_ifs with hpause <;> simp [update_game]
    | btnDown =>
      have hg := (load_pattern_prog_eq rand _ _ h).2.2.1
      exact ⟨fun _ => hg, fun hc => absurd hc (by decide), fun hc => absurd hc (by decide),
        fun hc => absurd hc (by decide), Or.inl hg⟩
    | tick =>
      have hs := Option.some.inj h
      subst hs
      refine ⟨?_, fun hc => absurd hc (by decide), fun _ => ?_,
        fun hc => absurd hc (by decide), ?_⟩
      · intro hc
        rcases hc with hc | hc | hc <;> exact absurd hc (by decide)
      · split_ifs with hpause <;> simp [update_game, hpause]
      · split_ifs with hpause <;> simp [update_game]
  · intro b p gen s0 h
    exact (load_pattern_prog_eq rand _ _ h).2.2.1

/-- C3 witness: a startup that restores generation 7 keeps it at 7. -/
theorem generation_counter_witness :
    (startup (fun _ _ => 1) false 2 7).map ProgState.generation = some 7 := by
  obtain ⟨s0, hs0⟩ : ∃ s0, startup (fun _ _ => 1) false 2 7 = some s0 := ⟨_, rfl⟩
  rw [hs0]
  show some s0.generation = some 7
  rw [(generation_counter (fun _ _ => 1)).2 false 2 7 s0 hs0]

/-- C8: from any state whose pattern index is `i ∈ [0, N)` (with `N` the
number of patterns), the next-pattern button selects index `(i + 1) mod N`
and the previous-pattern button selects index `(i - 1) mod N` (written
`(i + N - 1) mod N` to wrap cyclically at both ends), and each reloads the
selected pattern into the grid and resets the generation counter to 0. -/
theorem next_prev_pattern (rand : Int → Int → ℚ) (s : ProgState) (i : Nat)
    (hi : i < numPatterns) (hp : s.pattern = (i : Int)) :
    (∃ s', handleEvent rand s Ev.btnC = some s'
       ∧ s'.pattern = (((i + 1) % numPatterns : Nat) : Int)
       ∧ s'.generation = 0 ∧ s'.paused = s.paused
       ∧ load_pattern GRID_WIDTH GRID_HEIGHT rand s'.pattern s.grid = some s'.grid)
    ∧ (∃ s', handleEvent rand s Ev.btnA = some s'
       ∧ s'.pattern = (((i + numPatterns - 1) % numPatterns : Nat) : Int)
       ∧ s'.generation = 0 ∧ s'.paused = s.paused
       ∧ load_pattern GRID_WIDTH GRID_HEIGHT rand s'.pattern s.grid = some s'.grid) := by
  have hn : (numPatterns : Int) = 9 := rfl
  have hn' : numPatterns = 9 := rfl
  constructor
  · obtain ⟨g', hg'⟩ := load_pattern_isSome GRID_WIDTH GRID_HEIGHT rand
      ((s.pattern + 1) % (numPatterns : Int)) s.grid
      (by rw [hn]; omega) (by rw [hn]; omega)
    refine ⟨({ s with
                 pattern := (s.pattern + 1) % (numPatterns : Int),
                 generation := 0, grid := g' } : ProgState), ?_, ?_, rfl, rfl, hg'⟩
    · show load_pattern_prog rand
        { s with pattern := (s.pattern + 1) % (numPatterns : Int), generation := 0 } = _
      unfold load_pattern_prog
      rw [show ({ s with
                    pattern := (s.pattern + 1) % (numPatterns : Int),
                    generation := 0 } : ProgState).grid = s.grid from rfl] at hg' ⊢
      rw [hg']
      rfl
    · show (s.pattern + 1) % (numPatterns : Int) = (((i + 1) % numPatterns : Nat) : Int)
      rw [hp, hn, hn']
      omega
  · obtain ⟨g', hg'⟩ := load_pattern_isSome GRID_WIDTH GRID_HEIGHT rand
      ((s.pattern - 1) % (numPatterns : Int)) s.grid
      (by rw [hn]; omega) (by rw [hn]; omega)
    refine ⟨({ s with
                 pattern := (s.pattern - 1) % (numPatterns : Int),
                 generation := 0, grid := g' } : ProgState), ?_, ?_, rfl, rfl, hg'⟩
    · show load_pattern_prog rand
        { s with pattern := (s.pattern - 1) % (numPatterns : Int), generation := 0 } = _
      unfold load_pattern_prog
      rw [show ({ s with
                    pattern := (s.pattern - 1) % (numPatterns : Int),
                    generation := 0 } : ProgState).grid = s.grid from rfl] at hg' ⊢
      rw [hg']
      rfl
    · show (s.pattern - 1) % (numPatterns : Int) = (((i + numPatterns - 1) % numPatterns : Nat) : Int)
      rw [hp, hn, hn']
      omega

/-- C8 witness: from pattern 0, next selects 1 and previous wraps to 8. -/
theorem next_prev_pattern_witness :
    ((handleEvent (fun _ _ => 1) ⟨true, 0, 0, initGrid⟩ Ev.btnC).map ProgState.pattern
        = some 1)
      ∧ ((handleEvent (fun _ _ => 1) ⟨true, 0, 0, initGrid⟩ Ev.btnA).map ProgState.pattern
        = some 8) := by
  obtain ⟨⟨s1, h1, hp1, -, -, -⟩, ⟨s2, h2, hp2, -, -, -⟩⟩ :=
    next_prev_pattern (fun _ _ => 1) ⟨true, 0, 0, initGrid⟩ 0 (by decide) rfl
  rw [h1, h2]
  constructor
  · show some s1.pattern = some 1
    rw [hp1]
    rfl
  · show some s2.pattern = some 8
    rw [hp2]
    rfl

end Conway
